import Mathlib

/-!
Verification of the TDF route extractor's route reconstruction pipeline
(`index.js`, class `TDFRouteExtractor`).

Numbers are modelled as exact rationals.  The JavaScript code calls the
transcendental float kernels `Math.sin`, `Math.cos`, `Math.atan`,
`Math.atan2`, `Math.sqrt`, `Math.exp` and the constant `Math.PI`; these
have no exact rational counterpart, so every pipeline definition is
parametrised by a `Transc` record supplying them.  All list manipulation,
comparisons, thresholds and rational arithmetic are translated exactly
from the source; theorems quantify over the `Transc` parameter, and
witnesses instantiate it with concrete computable kernels.
-/

set_option maxRecDepth 16000

/-- The transcendental kernels used by `index.js` (`Math.sin`, `Math.cos`,
`Math.atan`, `Math.atan2`, `Math.sqrt`, `Math.exp`, `Math.PI`). -/
structure Transc where
  pi : ℚ
  sin : ℚ → ℚ
  cos : ℚ → ℚ
  atan : ℚ → ℚ
  atan2 : ℚ → ℚ → ℚ
  sqrt : ℚ → ℚ
  exp : ℚ → ℚ

/-- A 2-element coordinate array `[a, b]` from the source.  Depending on
context it holds `[lon, lat]`, `[lat, lon]` or projected `[x, y]`. -/
abbrev Pt : Type := ℚ × ℚ

/-- The `waypoints` object of `fetchStageWaypoints`, restricted to the two
fields the pipeline logic reads (`waypoints.start.coordinates` and
`waypoints.finish.coordinates`, both `[lon, lat]`). -/
structure Waypoints where
  start : Option Pt
  finish : Option Pt
deriving DecidableEq

/-- `calculateDistance(point1, point2)` (index.js:407-411): planar Euclidean
distance `Math.sqrt((x2-x1)^2 + (y2-y1)^2)`. -/
def calculateDistance (tr : Transc) (point1 point2 : Pt) : ℚ :=
  tr.sqrt ((point2.1 - point1.1) ^ 2 + (point2.2 - point1.2) ^ 2)

/-- `calculateGPSDistance(point1, point2)` (index.js:413-426): haversine
great-circle distance in kilometres between `[lat, lon]` points, with the
WGS84 equatorial radius 6378137.0 m. -/
def calculateGPSDistance (tr : Transc) (point1 point2 : Pt) : ℚ :=
  let lat1 := point1.1
  let lon1 := point1.2
  let lat2 := point2.1
  let lon2 := point2.2
  let R : ℚ := 6378137
  let dLat := (lat2 - lat1) * tr.pi / 180
  let dLon := (lon2 - lon1) * tr.pi / 180
  let a := tr.sin (dLat / 2) * tr.sin (dLat / 2) +
    tr.cos (lat1 * tr.pi / 180) * tr.cos (lat2 * tr.pi / 180) *
    tr.sin (dLon / 2) * tr.sin (dLon / 2)
  let c := 2 * tr.atan2 (tr.sqrt a) (tr.sqrt (1 - a))
  R * c / 1000

/-- Result record of `projectPointToLineSegment` (`{ point, t }`). -/
structure SegProjection where
  point : Pt
  t : ℚ
deriving DecidableEq

/-- `projectPointToLineSegment(point, lineStart, lineEnd)` (index.js:428-461):
vector projection of `point` onto the segment, with `t` clamped to `[0,1]`;
a degenerate (zero-length) segment returns the start point with `t = 0`. -/
def projectPointToLineSegment (point lineStart lineEnd : Pt) : SegProjection :=
  let px := point.1
  let py := point.2
  let x1 := lineStart.1
  let y1 := lineStart.2
  let x2 := lineEnd.1
  let y2 := lineEnd.2
  let dx := x2 - x1
  let dy := y2 - y1
  let dpx := px - x1
  let dpy := py - y1
  let lengthSquared := dx * dx + dy * dy
  if lengthSquared = 0 then
    { point := (x1, y1), t := 0 }
  else
    let t := (dpx * dx + dpy * dy) / lengthSquared
    let clampedT := max 0 (min 1 t)
    { point := (x1 + clampedT * dx, y1 + clampedT * dy), t := clampedT }

/-- Result record of `projectPointToLineString`
(`{ point, distance, segmentIndex, t }`). -/
structure LineProjection where
  point : Pt
  distance : ℚ
  segmentIndex : ℕ
  t : ℚ
deriving DecidableEq

/-- The segment loop of `projectPointToLineString` (index.js:471-484):
walks consecutive segment pairs keeping the projection with the strictly
smallest great-circle distance (first minimal segment wins ties).  The
accumulator `none` models the initial `closestProjection = null` /
`closestDistance = Infinity` state. -/
def projectPointToLineStringLoop (tr : Transc) (point : Pt) :
    List Pt → ℕ → Option LineProjection → Option LineProjection
  | [], _, best => best
  | [_], _, best => best
  | segmentStart :: segmentEnd :: rest, i, best =>
    let projection := projectPointToLineSegment point segmentStart segmentEnd
    let distance := calculateGPSDistance tr (point.2, point.1)
      (projection.point.2, projection.point.1)
    let best' : Option LineProjection :=
      match best with
      | none => some ⟨projection.point, distance, i, projection.t⟩
      | some b =>
        if distance < b.distance then some ⟨projection.point, distance, i, projection.t⟩
        else some b
    projectPointToLineStringLoop tr point (segmentEnd :: rest) (i + 1) best'

/-- `projectPointToLineString(point, lineString)` (index.js:463-492).
Returns `none` when the linestring has fewer than two points: there the JS
loop never runs and the dereference `closestProjection.point` throws. -/
def projectPointToLineString (tr : Transc) (point : Pt) (lineString : List Pt) :
    Option LineProjection :=
  projectPointToLineStringLoop tr point lineString 0 none

/-- JavaScript `Math.round` on a non-negative argument: round half up. -/
def jsRound (q : ℚ) : ℤ := ⌊q + 1 / 2⌋

/-- The scan loop of `eliminateRollingStart` (index.js:650-661): index of the
first trackpoint whose great-circle distance to the official start (given
as `[lat, lon]`) is at most 0.003 km, or `none` (`trueStartIndex = -1`). -/
def findTrueStartIndex (tr : Transc) : List Pt → Pt → ℕ → Option ℕ
  | [], _, _ => none
  | trackPoint :: rest, officialStartLatLon, i =>
    if calculateGPSDistance tr (trackPoint.2, trackPoint.1) officialStartLatLon ≤ 0.003 then
      some i
    else
      findTrueStartIndex tr rest officialStartLatLon (i + 1)

/-- `eliminateRollingStart(coordinates, waypoints, options)` (index.js:622-696).
Returns `none` exactly where the JS code throws: indexing `coordinates[0]`
of an empty route, or dereferencing the `null` projection when the
projection fallback runs on a route with fewer than two points.  The
splice-then-slice of the fallback is `take ++ point :: drop` followed by
`drop`. -/
def eliminateRollingStart (tr : Transc) (coordinates : List Pt)
    (waypoints : Option Waypoints) (keepRollingStart : Bool) : Option (List Pt) :=
  if keepRollingStart then some coordinates
  else
    match waypoints with
    | none => some coordinates
    | some wps =>
      match wps.start with
      | none => some coordinates
      | some startCoords =>
        let officialStart : Pt := (startCoords.1, startCoords.2)
        let officialStartLatLon : Pt := (officialStart.2, officialStart.1)
        match coordinates with
        | [] => none
        | routeStart :: restCoords =>
          let routeStartLatLon : Pt := (routeStart.2, routeStart.1)
          let startDistance := calculateGPSDistance tr routeStartLatLon officialStartLatLon
          if startDistance ≤ 0.003 then some (routeStart :: restCoords)
          else
            match findTrueStartIndex tr (routeStart :: restCoords) officialStartLatLon 0 with
            | some trueStartIndex => some ((routeStart :: restCoords).drop trueStartIndex)
            | none =>
              match projectPointToLineString tr officialStart (routeStart :: restCoords) with
              | none => none
              | some projection =>
                let insertionIndex := projection.segmentIndex + (jsRound projection.t).toNat
                let modifiedCoordinates :=
                  (routeStart :: restCoords).take insertionIndex ++
                    projection.point :: (routeStart :: restCoords).drop insertionIndex
                some (modifiedCoordinates.drop insertionIndex)

/-- `validateRouteDirectionByFinish(coordinates, finishWaypoint)`
(index.js:595-620): reverses the route when its first point is strictly
closer (great-circle) to the finish than its last point, otherwise returns
it unchanged.  `none` models indexing an empty route. -/
def validateRouteDirectionByFinish (tr : Transc) (coordinates : List Pt)
    (finishWaypoint : Pt) : Option (List Pt) :=
  match coordinates with
  | [] => none
  | c :: cs =>
    let routeStart := c
    let routeEnd := (c :: cs).getLastI
    let officialFinish : Pt := (finishWaypoint.2, finishWaypoint.1)
    let startToFinishDistance :=
      calculateGPSDistance tr (routeStart.2, routeStart.1) officialFinish
    let endToFinishDistance :=
      calculateGPSDistance tr (routeEnd.2, routeEnd.1) officialFinish
    if startToFinishDistance < endToFinishDistance then
      some (c :: cs).reverse
    else
      some (c :: cs)

/-- The per-point conversion inside `convertWebMercatorToWGS84`
(index.js:391-395): spherical inverse Web Mercator. -/
def convertMercatorPoint (tr : Transc) (p : Pt) : Pt :=
  let lon := p.1 / 20037508.34 * 180
  let lat := (tr.atan (tr.exp (p.2 / 20037508.34 * tr.pi)) - tr.pi / 4) * 2 * (180 / tr.pi)
  (lon, lat)

/-- The France-bounds validity filter of `convertWebMercatorToWGS84`
(index.js:398): `lon >= -5 && lon <= 10 && lat >= 41 && lat <= 52`. -/
def inFranceBounds (p : Pt) : Bool :=
  decide (-5 ≤ p.1) && decide (p.1 ≤ 10) && decide (41 ≤ p.2) && decide (p.2 ≤ 52)

/-- `convertWebMercatorToWGS84(coordinates)` (index.js:388-405): converts
each point and keeps only those inside the France bounding box, in input
order. -/
def convertWebMercatorToWGS84 (tr : Transc) : List Pt → List Pt
  | [] => []
  | p :: rest =>
    let c := convertMercatorPoint tr p
    if inFranceBounds c then c :: convertWebMercatorToWGS84 tr rest
    else convertWebMercatorToWGS84 tr rest

/-- The four `connection.type` strings of `findConnectableLineStrings`. -/
inductive ConnType
  | startStart
  | startEnd
  | endStart
  | endEnd
deriving DecidableEq

/-- One element of the `connectable` array built by
`findConnectableLineStrings` (index.js:519-526); `connectionType` and
`connectionDistance` are the fields of its `connection` object. -/
structure Connectable where
  index1 : ℕ
  index2 : ℕ
  lineString1 : List Pt
  lineString2 : List Pt
  connectionType : ConnType
  connectionDistance : ℚ
  totalLength : ℕ
deriving DecidableEq

/-- The `distances` array of `findConnectableLineStrings` (index.js:510-515):
the four endpoint-combination planar distances of a fragment pair, in the
fixed source order start-start, start-end, end-start, end-end. -/
def endpointCombinations (tr : Transc) (ls1 ls2 : List Pt) : List (ConnType × ℚ) :=
  let ls1Start := ls1.headI
  let ls1End := ls1.getLastI
  let ls2Start := ls2.headI
  let ls2End := ls2.getLastI
  [(ConnType.startStart, calculateDistance tr ls1Start ls2Start),
   (ConnType.startEnd, calculateDistance tr ls1Start ls2End),
   (ConnType.endStart, calculateDistance tr ls1End ls2Start),
   (ConnType.endEnd, calculateDistance tr ls1End ls2End)]

/-- `distances.find(d => d.distance <= maxDistance)` (index.js:517): the
first endpoint combination, in source order, within the threshold. -/
def closeConnection (tr : Transc) (ls1 ls2 : List Pt) (maxDistance : ℚ) :
    Option (ConnType × ℚ) :=
  (endpointCombinations tr ls1 ls2).find? (fun d => decide (d.2 ≤ maxDistance))

/-- Stable insertion step for the descending-by-length sort. -/
def insertByLengthDesc (x : List Pt) : List (List Pt) → List (List Pt)
  | [] => [x]
  | y :: ys =>
    if y.length ≤ x.length then x :: y :: ys
    else y :: insertByLengthDesc x ys

/-- Stable insertion sort modelling the stable JS
`sort((a, b) => b.length - a.length)` (descending by length). -/
def sortByLengthDesc : List (List Pt) → List (List Pt)
  | [] => []
  | x :: xs => insertByLengthDesc x (sortByLengthDesc xs)

/-- The `significant` list of `findConnectableLineStrings` (index.js:496):
fragments longer than 100 points, sorted descending by length. -/
def significantOf (lineStrings : List (List Pt)) : List (List Pt) :=
  sortByLengthDesc (lineStrings.filter (fun ls => decide (100 < ls.length)))

/-- Inner `j` loop of `findConnectableLineStrings` (index.js:501-528):
pairs a fixed fragment `ls1` (index `i`) with every later fragment. -/
def connectableWith (tr : Transc) (maxDistance : ℚ) (i : ℕ) (ls1 : List Pt) :
    List (List Pt) → ℕ → List Connectable
  | [], _ => []
  | ls2 :: rest, j =>
    match closeConnection tr ls1 ls2 maxDistance with
    | some conn =>
      ⟨i, j, ls1, ls2, conn.1, conn.2, ls1.length + ls2.length⟩ ::
        connectableWith tr maxDistance i ls1 rest (j + 1)
    | none => connectableWith tr maxDistance i ls1 rest (j + 1)

/-- Outer `i` loop of `findConnectableLineStrings` (index.js:500-529). -/
def connectableFrom (tr : Transc) (maxDistance : ℚ) :
    List (List Pt) → ℕ → List Connectable
  | [], _ => []
  | ls1 :: rest, i =>
    connectableWith tr maxDistance i ls1 rest (i + 1) ++
      connectableFrom tr maxDistance rest (i + 1)

/-- `findConnectableLineStrings(lineStrings, maxDistance)` (index.js:494-532). -/
def findConnectableLineStrings (tr : Transc) (lineStrings : List (List Pt))
    (maxDistance : ℚ) : List Connectable :=
  connectableFrom tr maxDistance (significantOf lineStrings) 0

/-- The `switch (bestConnection.connection.type)` join of
`connectLineStrings` (index.js:562-575); the duplicate shared endpoint is
dropped from the second piece by `slice(1)`. -/
def joinConnection : ConnType → List Pt → List Pt → List Pt
  | ConnType.startStart, ls1, ls2 => ls1.reverse ++ ls2.drop 1
  | ConnType.startEnd, ls1, ls2 => ls2 ++ ls1.drop 1
  | ConnType.endStart, ls1, ls2 => ls1 ++ ls2.drop 1
  | ConnType.endEnd, ls1, ls2 => ls1 ++ ls2.reverse.drop 1

/-- `connectLineStrings(lineStrings, stageName, waypoints)`
(index.js:534-593).  `none` models the `reduce` of an empty array with no
initial value, which throws.  `stageName` only feeds logging in the
source; it is kept for signature fidelity. -/
def connectLineStrings (tr : Transc) (lineStrings : List (List Pt))
    (stageName : String) (waypoints : Option Waypoints) : Option (List Pt) :=
  match findConnectableLineStrings tr lineStrings 10 with
  | [] =>
    match lineStrings with
    | [] => none
    | l :: ls =>
      let longest := ls.foldl
        (fun longest current => if longest.length < current.length then current else longest) l
      match waypoints with
      | some wps =>
        match wps.finish with
        | some f => validateRouteDirectionByFinish tr longest f
        | none => some longest
      | none => some longest
  | c :: cs =>
    let bestConnection := cs.foldl
      (fun best current => if best.totalLength < current.totalLength then current else best) c
    let connected := joinConnection bestConnection.connectionType
      bestConnection.lineString1 bestConnection.lineString2
    match waypoints with
    | some wps =>
      match wps.finish with
      | some f => validateRouteDirectionByFinish tr connected f
      | none => some connected
    | none => some connected

/-- The diagnostic report computed by `validateRouteEndpoints`: the two
great-circle distances (km) and whether each exceeded the 10 m warning
threshold. -/
structure EndpointReport where
  startDistance : ℚ
  endDistance : ℚ
  startWarning : Bool
  endWarning : Bool
deriving DecidableEq

/-- `validateRouteEndpoints(coordinates, waypoints, stageName)`
(index.js:698-738): purely diagnostic; warns when an endpoint is more than
`maxDistance = 0.01` km from its official reference.  `none` covers both
the missing-waypoints early return (no report) and indexing an empty
route. -/
def validateRouteEndpoints (tr : Transc) (coordinates : List Pt)
    (waypoints : Option Waypoints) : Option EndpointReport :=
  match waypoints with
  | none => none
  | some wps =>
    match wps.start, wps.finish with
    | some officialStart, some officialFinish =>
      match coordinates with
      | [] => none
      | c :: cs =>
        let routeStart := c
        let routeEnd := (c :: cs).getLastI
        let startDistance := calculateGPSDistance tr (routeStart.2, routeStart.1)
          (officialStart.2, officialStart.1)
        let endDistance := calculateGPSDistance tr (routeEnd.2, routeEnd.1)
          (officialFinish.2, officialFinish.1)
        let maxDistance : ℚ := 0.01
        some ⟨startDistance, endDistance,
          decide (maxDistance < startDistance), decide (maxDistance < endDistance)⟩
    | _, _ => none

/-- The call site of `validateRouteEndpoints` in `processFeature`
(index.js:368): the route handed downstream is the same `coordinates`
value; validation only produces the report. -/
def validateAndPassRoute (tr : Transc) (coordinates : List Pt)
    (waypoints : Option Waypoints) : List Pt × Option EndpointReport :=
  (coordinates, validateRouteEndpoints tr coordinates waypoints)

lemma projectPointToLineSegment_t_nonneg (point lineStart lineEnd : Pt) :
    0 ≤ (projectPointToLineSegment point lineStart lineEnd).t := by
  unfold projectPointToLineSegment
  dsimp only
  split
  · simp
  · exact le_max_left 0 _

lemma projectPointToLineSegment_t_le_one (point lineStart lineEnd : Pt) :
    (projectPointToLineSegment point lineStart lineEnd).t ≤ 1 := by
  unfold projectPointToLineSegment
  dsimp only
  split
  · norm_num
  · exact max_le (by norm_num) (min_le_left 1 _)

lemma projectPointToLineStringLoop_isSome (tr : Transc) (point : Pt) :
    ∀ (l : List Pt) (i : ℕ) (best : Option LineProjection),
      (projectPointToLineStringLoop tr point l i best).isSome =
        (best.isSome || decide (2 ≤ l.length)) := by
  intro l
  induction l with
  | nil => intro i best; simp [projectPointToLineStringLoop]
  | cons a rest ih =>
    intro i best
    cases rest with
    | nil => simp [projectPointToLineStringLoop]
    | cons b rest' =>
      simp only [projectPointToLineStringLoop]
      rw [ih]
      cases best with
      | none => simp
      | some b0 =>
        simp only [List.length_cons]
        split <;> simp <;> omega

lemma projectPointToLineString_isSome (tr : Transc) (point : Pt) (lineString : List Pt) :
    (projectPointToLineString tr point lineString).isSome ↔ 2 ≤ lineString.length := by
  unfold projectPointToLineString
  rw [projectPointToLineStringLoop_isSome]
  simp

lemma projectPointToLineStringLoop_bounds (tr : Transc) (point : Pt) :
    ∀ (l : List Pt) (i : ℕ) (best : Option LineProjection),
      (∀ b, best = some b → 0 ≤ b.t ∧ b.t ≤ 1 ∧ b.segmentIndex + 2 ≤ i + l.length) →
      ∀ r, projectPointToLineStringLoop tr point l i best = some r →
        0 ≤ r.t ∧ r.t ≤ 1 ∧ r.segmentIndex + 2 ≤ i + l.length := by
  intro l
  induction l with
  | nil =>
    intro i best hinv r hr
    simp only [projectPointToLineStringLoop] at hr
    exact hinv r hr
  | cons a rest ih =>
    intro i best hinv r hr
    cases rest with
    | nil =>
      simp only [projectPointToLineStringLoop] at hr
      exact hinv r hr
    | cons b rest' =>
      have hseg0 := projectPointToLineSegment_t_nonneg point a b
      have hseg1 := projectPointToLineSegment_t_le_one point a b
      cases best with
      | none =>
        simp only [projectPointToLineStringLoop] at hr
        have hnext := ih (i + 1) _ ?_ r hr
        · refine ⟨hnext.1, hnext.2.1, ?_⟩
          have h3 := hnext.2.2
          simp only [List.length_cons] at h3 ⊢
          omega
        · intro b1 hb1
          injection hb1 with hb1
          rw [← hb1]
          refine ⟨hseg0, hseg1, ?_⟩
          show i + 2 ≤ i + 1 + (b :: rest').length
          simp only [List.length_cons]
          omega
      | some b0 =>
        simp only [projectPointToLineStringLoop] at hr
        have hb0 := hinv b0 rfl
        have harith := hb0.2.2
        simp only [List.length_cons] at harith
        have hnext := ih (i + 1) _ ?_ r hr
        · refine ⟨hnext.1, hnext.2.1, ?_⟩
          have h3 := hnext.2.2
          simp only [List.length_cons] at h3 ⊢
          omega
        · intro b1 hb1
          simp only at hb1
          split at hb1
          · injection hb1 with hb1
            rw [← hb1]
            refine ⟨hseg0, hseg1, ?_⟩
            show i + 2 ≤ i + 1 + (b :: rest').length
            simp only [List.length_cons]
            omega
          · injection hb1 with hb1
            rw [← hb1]
            refine ⟨hb0.1, hb0.2.1, ?_⟩
            simp only [List.length_cons]
            omega

lemma projectPointToLineString_bounds (tr : Transc) (point : Pt) (lineString : List Pt)
    (r : LineProjection) (hr : projectPointToLineString tr point lineString = some r) :
    0 ≤ r.t ∧ r.t ≤ 1 ∧ r.segmentIndex + 2 ≤ lineString.length := by
  have := projectPointToLineStringLoop_bounds tr point lineString 0 none
    (by intro b hb; cases hb) r hr
  simpa using this

lemma findTrueStartIndex_eq_none (tr : Transc) :
    ∀ (l : List Pt) (o : Pt) (i : ℕ),
      findTrueStartIndex tr l o i = none ↔
        ∀ p ∈ l, ¬ calculateGPSDistance tr (p.2, p.1) o ≤ 0.003 := by
  intro l
  induction l with
  | nil => intro o i; simp [findTrueStartIndex]
  | cons a rest ih =>
    intro o i
    simp only [findTrueStartIndex]
    split
    · simp only [List.mem_cons]
      constructor
      · intro h; cases h
      · intro h
        exact absurd (by assumption) (h a (Or.inl rfl))
    · rw [ih]
      simp only [List.mem_cons]
      constructor
      · intro h p hp
        rcases hp with rfl | hp
        · assumption
        · exact h p hp
      · intro h p hp
        exact h p (Or.inr hp)

lemma jsRound_toNat_le_one {t : ℚ} (h0 : 0 ≤ t) (h1 : t ≤ 1) :
    (jsRound t).toNat ≤ 1 := by
  unfold jsRound
  have h2 : ⌊t + 1 / 2⌋ ≤ ⌊(3 / 2 : ℚ)⌋ := Int.floor_le_floor (by linarith)
  have h3 : ⌊(3 / 2 : ℚ)⌋ = 1 := by norm_num [Int.floor_eq_iff]
  omega

lemma drop_take_splice {α : Type} (l : List α) (x : α) (n : ℕ) (h : n ≤ l.length) :
    (l.take n ++ x :: l.drop n).drop n = x :: l.drop n := by
  induction l generalizing n with
  | nil =>
    simp only [List.length_nil, Nat.le_zero] at h
    subst h
    simp
  | cons a as ih =>
    cases n with
    | zero => simp
    | succ m =>
      simp only [List.take_succ_cons, List.drop_succ_cons, List.cons_append, List.drop_succ_cons]
      exact ih m (by simpa using h)

lemma headI_eq_iget_head? {α : Type} [Inhabited α] (l : List α) : l.headI = l.head?.iget := by
  cases l <;> rfl

lemma headI_reverse {α : Type} [Inhabited α] (l : List α) : l.reverse.headI = l.getLastI := by
  rw [headI_eq_iget_head?, List.head?_reverse, List.getLastI_eq_getLast?]

lemma getLastI_reverse {α : Type} [Inhabited α] (l : List α) : l.reverse.getLastI = l.headI := by
  rw [List.getLastI_eq_getLast?, List.getLast?_reverse, headI_eq_iget_head?]

lemma validateRouteDirectionByFinish_cons (tr : Transc) (c : Pt) (cs : List Pt) (f : Pt) :
    validateRouteDirectionByFinish tr (c :: cs) f =
      if calculateGPSDistance tr (c.2, c.1) (f.2, f.1) <
          calculateGPSDistance tr ((c :: cs).getLastI.2, (c :: cs).getLastI.1) (f.2, f.1) then
        some (c :: cs).reverse
      else some (c :: cs) := rfl

lemma validateRouteDirectionByFinish_some (tr : Transc) (c : Pt) (cs : List Pt) (f : Pt) :
    ∃ r, validateRouteDirectionByFinish tr (c :: cs) f = some r ∧
      (r = c :: cs ∨ r = (c :: cs).reverse) := by
  rw [validateRouteDirectionByFinish_cons]
  split
  · exact ⟨_, rfl, Or.inr rfl⟩
  · exact ⟨_, rfl, Or.inl rfl⟩

lemma foldl_best_spec {α : Type} (key : α → ℕ) :
    ∀ (l : List α) (init : α),
      (l.foldl (fun best current => if key best < key current then current else best) init = init ∨
        l.foldl (fun best current => if key best < key current then current else best) init ∈ l) ∧
      key init ≤ key (l.foldl (fun best current => if key best < key current then current else best) init) ∧
      ∀ x ∈ l, key x ≤ key (l.foldl (fun best current => if key best < key current then current else best) init) := by
  intro l
  induction l with
  | nil => intro init; simp
  | cons a as ih =>
    intro init
    simp only [List.foldl_cons]
    obtain ⟨hmem, hinit, hall⟩ := ih (if key init < key a then a else init)
    refine ⟨?_, ?_, ?_⟩
    · rcases hmem with h | h
      · rw [h]
        split
        · exact Or.inr (List.mem_cons_self a as)
        · exact Or.inl rfl
      · exact Or.inr (List.mem_cons_of_mem a h)
    · refine le_trans ?_ hinit
      split
      · omega
      · exact le_rfl
    · intro x hx
      rcases List.mem_cons.mp hx with rfl | hx
      · refine le_trans ?_ hinit
        split
        · exact le_rfl
        · omega
      · exact hall x hx

lemma mem_insertByLengthDesc {x y : List Pt} :
    ∀ {l : List (List Pt)}, y ∈ insertByLengthDesc x l ↔ y = x ∨ y ∈ l := by
  intro l
  induction l with
  | nil => simp [insertByLengthDesc]
  | cons a as ih =>
    simp only [insertByLengthDesc]
    split
    · simp [List.mem_cons]
    · simp only [List.mem_cons, ih]
      tauto

lemma mem_sortByLengthDesc {y : List Pt} :
    ∀ {l : List (List Pt)}, y ∈ sortByLengthDesc l ↔ y ∈ l := by
  intro l
  induction l with
  | nil => simp [sortByLengthDesc]
  | cons a as ih => simp [sortByLengthDesc, mem_insertByLengthDesc, ih]

lemma significantOf_mem {L : List (List Pt)} {ls : List Pt} (h : ls ∈ significantOf L) :
    100 < ls.length := by
  unfold significantOf at h
  rw [mem_sortByLengthDesc] at h
  simp only [List.mem_filter] at h
  simpa using h.2

lemma connectableWith_mem (tr : Transc) (d : ℚ) (i : ℕ) (ls1 : List Pt) :
    ∀ (rest : List (List Pt)) (j : ℕ) (x : Connectable),
      x ∈ connectableWith tr d i ls1 rest j →
        x.lineString1 = ls1 ∧ x.lineString2 ∈ rest ∧
          x.totalLength = x.lineString1.length + x.lineString2.length := by
  intro rest
  induction rest with
  | nil => intro j x hx; simp [connectableWith] at hx
  | cons ls2 rest' ih =>
    intro j x hx
    rw [connectableWith] at hx
    cases hc : closeConnection tr ls1 ls2 d with
    | some conn =>
      rw [hc] at hx
      simp only [List.mem_cons] at hx
      rcases hx with rfl | hx
      · exact ⟨rfl, List.mem_cons_self _ _, rfl⟩
      · have h3 := ih (j + 1) x hx
        exact ⟨h3.1, List.mem_cons_of_mem _ h3.2.1, h3.2.2⟩
    | none =>
      rw [hc] at hx
      have h3 := ih (j + 1) x hx
      exact ⟨h3.1, List.mem_cons_of_mem _ h3.2.1, h3.2.2⟩

lemma connectableFrom_mem (tr : Transc) (d : ℚ) :
    ∀ (l : List (List Pt)) (i : ℕ) (x : Connectable),
      x ∈ connectableFrom tr d l i →
        x.lineString1 ∈ l ∧ x.lineString2 ∈ l ∧
          x.totalLength = x.lineString1.length + x.lineString2.length := by
  intro l
  induction l with
  | nil => intro i x hx; simp [connectableFrom] at hx
  | cons ls1 rest ih =>
    intro i x hx
    rw [connectableFrom] at hx
    rcases List.mem_append.mp hx with hx | hx
    · have h3 := connectableWith_mem tr d i ls1 rest (i + 1) x hx
      refine ⟨?_, List.mem_cons_of_mem _ h3.2.1, h3.2.2⟩
      rw [h3.1]
      exact List.mem_cons_self _ _
    · have h3 := ih (i + 1) x hx
      exact ⟨List.mem_cons_of_mem _ h3.1, List.mem_cons_of_mem _ h3.2.1, h3.2.2⟩

lemma findConnectableLineStrings_mem {tr : Transc} {L : List (List Pt)} {x : Connectable}
    (h : x ∈ findConnectableLineStrings tr L 10) :
    100 < x.lineString1.length ∧ 100 < x.lineString2.length ∧
      x.totalLength = x.lineString1.length + x.lineString2.length := by
  unfold findConnectableLineStrings at h
  have h3 := connectableFrom_mem tr 10 (significantOf L) 0 x h
  exact ⟨significantOf_mem h3.1, significantOf_mem h3.2.1, h3.2.2⟩

lemma joinConnection_length (t : ConnType) (l1 l2 : List Pt)
    (h1 : l1 ≠ []) (h2 : l2 ≠ []) :
    (joinConnection t l1 l2).length + 1 = l1.length + l2.length := by
  have p1 : 0 < l1.length := List.length_pos.mpr h1
  have p2 : 0 < l2.length := List.length_pos.mpr h2
  cases t <;>
    simp only [joinConnection, List.length_append, List.length_drop, List.length_reverse] <;>
    omega

/-- Concrete all-zero kernels: a computable instantiation of the
transcendental parameters under which every great-circle distance
evaluates to 0; used by witnesses. -/
def trZero : Transc :=
  ⟨0, fun _ => 0, fun _ => 0, fun _ => 0, fun _ _ => 0, fun _ => 0, fun _ => 0⟩

/-- Concrete polynomial kernels (`pi = 180`, `sin = id`, `cos = 1`,
`atan2 y x = y`, `sqrt = id`, `atan = id`, `exp = id`): the haversine
formula becomes a scaled squared-chord distance and the planar distance
becomes the squared Euclidean distance, both exactly computable on ℚ;
used by witnesses and counterexamples. -/
def trQuad : Transc :=
  ⟨180, id, fun _ => 1, id, fun y _ => y, id, id⟩

lemma eliminateRollingStart_eq (tr : Transc) (c : Pt) (cs : List Pt) (s : Pt)
    (wfin : Option Pt) :
    eliminateRollingStart tr (c :: cs) (some ⟨some s, wfin⟩) false =
      if calculateGPSDistance tr (c.2, c.1) (s.2, s.1) ≤ 0.003 then some (c :: cs)
      else
        match findTrueStartIndex tr (c :: cs) (s.2, s.1) 0 with
        | some trueStartIndex => some ((c :: cs).drop trueStartIndex)
        | none =>
          match projectPointToLineString tr s (c :: cs) with
          | none => none
          | some projection =>
            some (((c :: cs).take (projection.segmentIndex + (jsRound projection.t).toNat) ++
              projection.point ::
                (c :: cs).drop (projection.segmentIndex + (jsRound projection.t).toNat)).drop
              (projection.segmentIndex + (jsRound projection.t).toNat)) := rfl

lemma validateRouteDirectionByFinish_of_ne_nil (tr : Transc) {l : List Pt}
    (h : l ≠ []) (f : Pt) :
    validateRouteDirectionByFinish tr l f =
      if calculateGPSDistance tr (l.headI.2, l.headI.1) (f.2, f.1) <
          calculateGPSDistance tr (l.getLastI.2, l.getLastI.1) (f.2, f.1) then
        some l.reverse
      else some l := by
  cases l with
  | nil => exact absurd rfl h
  | cons c cs => rw [validateRouteDirectionByFinish_cons]; rfl

/-- Claim C4: for every non-empty route and start reference, if the
great-circle distance from the route's first point to the start reference
is at most 3 meters (0.003 km), `eliminateRollingStart` returns the input
sequence unchanged, with zero points removed. -/
theorem claim_C4_theorem (tr : Transc) (c : Pt) (cs : List Pt) (s : Pt)
    (wfin : Option Pt) (keep : Bool)
    (h : calculateGPSDistance tr (c.2, c.1) (s.2, s.1) ≤ 0.003) :
    eliminateRollingStart tr (c :: cs) (some ⟨some s, wfin⟩) keep = some (c :: cs) := by
  cases keep with
  | true => rfl
  | false => rw [eliminateRollingStart_eq, if_pos h]

/-- Witness for C4 at a concrete input: with the all-zero kernels the
route start is at distance 0 ≤ 0.003 km from the start reference and the
route comes back unchanged. -/
theorem claim_C4_witness :
    calculateGPSDistance trZero (((0:ℚ), (0:ℚ)).2, ((0:ℚ), (0:ℚ)).1)
        (((5:ℚ), (5:ℚ)).2, ((5:ℚ), (5:ℚ)).1) ≤ 0.003 ∧
      eliminateRollingStart trZero [((0:ℚ), (0:ℚ))]
        (some ⟨some ((5:ℚ), (5:ℚ)), none⟩) false = some [((0:ℚ), (0:ℚ))] :=
  ⟨by with_unfolding_all decide,
    claim_C4_theorem trZero ((0:ℚ), (0:ℚ)) [] ((5:ℚ), (5:ℚ)) none false
      (by with_unfolding_all decide)⟩

/-- Claim C5: for every non-empty route and finish reference,
`validateRouteDirectionByFinish` returns the reversed route when the
route's first point is strictly closer (great-circle) to the finish than
its last point, and returns the route unchanged otherwise. -/
theorem claim_C5_theorem (tr : Transc) (c : Pt) (cs : List Pt) (f : Pt) :
    (calculateGPSDistance tr (c.2, c.1) (f.2, f.1) <
        calculateGPSDistance tr ((c :: cs).getLastI.2, (c :: cs).getLastI.1) (f.2, f.1) →
      validateRouteDirectionByFinish tr (c :: cs) f = some (c :: cs).reverse) ∧
    (¬ calculateGPSDistance tr (c.2, c.1) (f.2, f.1) <
        calculateGPSDistance tr ((c :: cs).getLastI.2, (c :: cs).getLastI.1) (f.2, f.1) →
      validateRouteDirectionByFinish tr (c :: cs) f = some (c :: cs)) := by
  constructor
  · intro h
    rw [validateRouteDirectionByFinish_cons, if_pos h]
  · intro h
    rw [validateRouteDirectionByFinish_cons, if_neg h]

/-- Witness for C5 at a concrete input: with the all-zero kernels both
endpoint distances are 0, the first point is not strictly closer, and the
route comes back unchanged. -/
theorem claim_C5_witness :
    (¬ calculateGPSDistance trZero (((0:ℚ), (0:ℚ)).2, ((0:ℚ), (0:ℚ)).1)
        (((1:ℚ), (1:ℚ)).2, ((1:ℚ), (1:ℚ)).1) <
      calculateGPSDistance trZero
        (([((0:ℚ), (0:ℚ)), ((2:ℚ), (2:ℚ))] : List Pt).getLastI.2,
          ([((0:ℚ), (0:ℚ)), ((2:ℚ), (2:ℚ))] : List Pt).getLastI.1)
        (((1:ℚ), (1:ℚ)).2, ((1:ℚ), (1:ℚ)).1)) ∧
      validateRouteDirectionByFinish trZero [((0:ℚ), (0:ℚ)), ((2:ℚ), (2:ℚ))]
        ((1:ℚ), (1:ℚ)) = some [((0:ℚ), (0:ℚ)), ((2:ℚ), (2:ℚ))] :=
  ⟨by with_unfolding_all decide,
    (claim_C5_theorem trZero ((0:ℚ), (0:ℚ)) [((2:ℚ), (2:ℚ))] ((1:ℚ), (1:ℚ))).2
      (by with_unfolding_all decide)⟩

/-- Claim C9: the Direction Normalizer is idempotent on non-empty routes:
applying `validateRouteDirectionByFinish` to its own output yields the
same result as applying it once. -/
theorem claim_C9_theorem (tr : Transc) (c : Pt) (cs : List Pt) (f : Pt) :
    (validateRouteDirectionByFinish tr (c :: cs) f).bind
        (fun r => validateRouteDirectionByFinish tr r f) =
      validateRouteDirectionByFinish tr (c :: cs) f := by
  have hne : (c :: cs) ≠ [] := List.cons_ne_nil c cs
  rw [validateRouteDirectionByFinish_of_ne_nil tr hne f]
  split
  · rename_i h
    have hrev : (c :: cs).reverse ≠ [] := by simp
    simp only [Option.some_bind]
    rw [validateRouteDirectionByFinish_of_ne_nil tr hrev f,
      headI_reverse, getLastI_reverse, if_neg (lt_asymm h)]
  · rename_i h
    simp only [Option.some_bind]
    rw [validateRouteDirectionByFinish_of_ne_nil tr hne f, if_neg h]

/-- Claim C10: `projectPointToLineString` yields a projection exactly when
the polyline has at least two points — with fewer the JS segment loop
never runs and the null dereference fails — and consequently
`eliminateRollingStart` on a route of at least two points can never reach
that failure. -/
theorem claim_C10_theorem (tr : Transc) (point : Pt) (lineString : List Pt)
    (coordinates : List Pt) (waypoints : Option Waypoints) (keep : Bool) :
    ((projectPointToLineString tr point lineString).isSome ↔ 2 ≤ lineString.length) ∧
    (2 ≤ coordinates.length →
      eliminateRollingStart tr coordinates waypoints keep ≠ none) := by
  refine ⟨projectPointToLineString_isSome tr point lineString, fun h2 => ?_⟩
  cases keep with
  | true => simp [eliminateRollingStart]
  | false =>
    cases waypoints with
    | none => simp [eliminateRollingStart]
    | some wps =>
      obtain ⟨ws, wf⟩ := wps
      cases ws with
      | none => simp [eliminateRollingStart]
      | some s =>
        cases coordinates with
        | nil => simp at h2
        | cons c cs =>
          rw [eliminateRollingStart_eq]
          split
          · exact Option.some_ne_none _
          · split
            · exact Option.some_ne_none _
            · have hs : (projectPointToLineString tr s (c :: cs)).isSome := by
                rw [projectPointToLineString_isSome]
                simpa using h2
              obtain ⟨proj, hproj⟩ := Option.isSome_iff_exists.mp hs
              rw [hproj]
              exact Option.some_ne_none _

/-- Witness for C10 at a concrete two-point route: the projection is
defined and `eliminateRollingStart` does not fail. -/
theorem claim_C10_witness :
    2 ≤ ([((0:ℚ), (0:ℚ)), ((1:ℚ), (0:ℚ))] : List Pt).length ∧
      eliminateRollingStart trZero [((0:ℚ), (0:ℚ)), ((1:ℚ), (0:ℚ))] none false ≠ none :=
  ⟨by decide,
    (claim_C10_theorem trZero ((0:ℚ), (0:ℚ)) [] [((0:ℚ), (0:ℚ)), ((1:ℚ), (0:ℚ))]
      none false).2 (by with_unfolding_all decide)⟩

lemma convertWebMercatorToWGS84_eq_filter (tr : Transc) :
    ∀ coordinates : List Pt,
      convertWebMercatorToWGS84 tr coordinates =
        (coordinates.map (convertMercatorPoint tr)).filter inFranceBounds := by
  intro l
  induction l with
  | nil => rfl
  | cons p rest ih =>
    simp only [convertWebMercatorToWGS84, List.map_cons, List.filter_cons]
    split <;> rw [ih]

/-- Claim C6: the Coordinate Projector's output is exactly the in-order
filter of the converted points by the France bounding box: points
converting outside the box are absent, survivors keep their input order
with no gaps reinserted, and the output count is at most the input
count. -/
theorem claim_C6_theorem (tr : Transc) (coordinates : List Pt) :
    convertWebMercatorToWGS84 tr coordinates =
      (coordinates.map (convertMercatorPoint tr)).filter inFranceBounds ∧
    (convertWebMercatorToWGS84 tr coordinates).length ≤ coordinates.length ∧
    ∀ c ∈ convertWebMercatorToWGS84 tr coordinates, inFranceBounds c = true := by
  refine ⟨convertWebMercatorToWGS84_eq_filter tr coordinates, ?_, ?_⟩
  · rw [convertWebMercatorToWGS84_eq_filter]
    calc ((coordinates.map (convertMercatorPoint tr)).filter inFranceBounds).length
        ≤ (coordinates.map (convertMercatorPoint tr)).length :=
          List.length_filter_le _ _
      _ = coordinates.length := List.length_map _ _
  · intro c hc
    rw [convertWebMercatorToWGS84_eq_filter] at hc
    exact List.of_mem_filter hc

/-- Claim C7: on an empty fragment set the Fragment Stitcher is a hard
failure — the JS `reduce` of an empty array with no initial value throws,
modelled as `none` — propagated to the caller; it never silently returns
a default route. -/
theorem claim_C7_theorem (tr : Transc) (stageName : String)
    (waypoints : Option Waypoints) :
    connectLineStrings tr [] stageName waypoints = none := rfl

/-- Claim C8: with both start and finish references present and a
non-empty route, the Endpoint Validator computes the great-circle
distances from the route's first point to the start reference and from its
last point to the finish reference, warns about an endpoint exactly when
its distance exceeds the 10 m (0.01 km) threshold, and the route passed
downstream is unchanged. -/
theorem claim_C8_theorem (tr : Transc) (c : Pt) (cs : List Pt) (s f : Pt) :
    ∃ rep : EndpointReport,
      validateRouteEndpoints tr (c :: cs) (some ⟨some s, some f⟩) = some rep ∧
      rep.startDistance = calculateGPSDistance tr (c.2, c.1) (s.2, s.1) ∧
      rep.endDistance =
        calculateGPSDistance tr ((c :: cs).getLastI.2, (c :: cs).getLastI.1) (f.2, f.1) ∧
      (rep.startWarning = true ↔ 0.01 < rep.startDistance) ∧
      (rep.endWarning = true ↔ 0.01 < rep.endDistance) ∧
      validateAndPassRoute tr (c :: cs) (some ⟨some s, some f⟩) = (c :: cs, some rep) := by
  refine ⟨_, rfl, rfl, rfl, ?_, ?_, rfl⟩
  · exact decide_eq_true_iff
  · exact decide_eq_true_iff

/-- Claim C1 (amended): for every route of at least two points with a
start reference, if no point of the route is within 3 m (great-circle) of
the start reference and `keepRollingStart` is unset, `eliminateRollingStart`
inserts exactly one new point — the projection of the start reference onto
the route polyline — at index `segmentIndex + round(t)` and returns the
suffix beginning at that index, so the projected point is the result's
first element.  The result begins at the projected point; it equals the
official start location only when the reference lies on the polyline (see
the counterexample). -/
theorem claim_C1_theorem (tr : Transc) (coordinates : List Pt) (s : Pt)
    (wfin : Option Pt) (h2 : 2 ≤ coordinates.length)
    (hfar : ∀ p ∈ coordinates,
      ¬ calculateGPSDistance tr (p.2, p.1) (s.2, s.1) ≤ 0.003) :
    ∃ projection : LineProjection,
      projectPointToLineString tr s coordinates = some projection ∧
      eliminateRollingStart tr coordinates (some ⟨some s, wfin⟩) false =
        some (projection.point ::
          coordinates.drop (projection.segmentIndex + (jsRound projection.t).toNat)) := by
  obtain ⟨c, cs, rfl⟩ : ∃ c cs, coordinates = c :: cs := by
    cases coordinates with
    | nil => simp at h2
    | cons c cs => exact ⟨c, cs, rfl⟩
  have hsome : (projectPointToLineString tr s (c :: cs)).isSome := by
    rw [projectPointToLineString_isSome]
    exact h2
  obtain ⟨projection, hproj⟩ := Option.isSome_iff_exists.mp hsome
  refine ⟨projection, hproj, ?_⟩
  rw [eliminateRollingStart_eq, if_neg (hfar c (List.mem_cons_self c cs))]
  have hscan : findTrueStartIndex tr (c :: cs) (s.2, s.1) 0 = none :=
    (findTrueStartIndex_eq_none tr (c :: cs) (s.2, s.1) 0).mpr hfar
  rw [hscan, hproj]
  dsimp only
  have hbounds := projectPointToLineString_bounds tr s (c :: cs) projection hproj
  have hr1 := jsRound_toNat_le_one hbounds.1 hbounds.2.1
  have hle : projection.segmentIndex + (jsRound projection.t).toNat ≤ (c :: cs).length := by
    have hb := hbounds.2.2
    omega
  rw [drop_take_splice (c :: cs) projection.point _ hle]

/-- Counterexample to C1 as stated: at a concrete input satisfying all of
C1's hypotheses (two-point route, no trackpoint within 3 m, keepOriginal
unset), the returned route begins at the projected point `(1, 0)`, not at
the official start reference `(2, 0)` — the output does not begin at the
official start location when the reference is off the polyline. -/
theorem claim_C1_counterexample :
    ¬ (∀ (tr : Transc) (coordinates : List Pt) (s : Pt) (wfin : Option Pt),
        2 ≤ coordinates.length →
        (∀ p ∈ coordinates,
          ¬ calculateGPSDistance tr (p.2, p.1) (s.2, s.1) ≤ 0.003) →
        ∀ r, eliminateRollingStart tr coordinates (some ⟨some s, wfin⟩) false = some r →
          r.headI = s) := by
  intro h
  have h1 := h trQuad [((0:ℚ), (0:ℚ)), ((1:ℚ), (0:ℚ))] ((2:ℚ), (0:ℚ)) none
    (by decide) (by with_unfolding_all decide)
    [((1:ℚ), (0:ℚ)), ((1:ℚ), (0:ℚ))] (by with_unfolding_all decide)
  exact absurd h1 (by with_unfolding_all decide)

/-- Witness for the amended C1 at the counterexample's input: the
projection of `(2, 0)` onto the two-point route is `(1, 0)` with segment
index 0 and `t = 1`; it is inserted at index 1 and heads the returned
suffix. -/
theorem claim_C1_witness :
    (2 ≤ ([((0:ℚ), (0:ℚ)), ((1:ℚ), (0:ℚ))] : List Pt).length ∧
      ∀ p ∈ ([((0:ℚ), (0:ℚ)), ((1:ℚ), (0:ℚ))] : List Pt),
        ¬ calculateGPSDistance trQuad (p.2, p.1)
          ((((2:ℚ), (0:ℚ)) : Pt).2, (((2:ℚ), (0:ℚ)) : Pt).1) ≤ 0.003) ∧
    ∃ projection : LineProjection,
      projectPointToLineString trQuad ((2:ℚ), (0:ℚ))
          [((0:ℚ), (0:ℚ)), ((1:ℚ), (0:ℚ))] = some projection ∧
      eliminateRollingStart trQuad [((0:ℚ), (0:ℚ)), ((1:ℚ), (0:ℚ))]
          (some ⟨some ((2:ℚ), (0:ℚ)), none⟩) false =
        some (projection.point ::
          ([((0:ℚ), (0:ℚ)), ((1:ℚ), (0:ℚ))] : List Pt).drop
            (projection.segmentIndex + (jsRound projection.t).toNat)) :=
  ⟨⟨by decide, by with_unfolding_all decide⟩,
    claim_C1_theorem trQuad [((0:ℚ), (0:ℚ)), ((1:ℚ), (0:ℚ))] ((2:ℚ), (0:ℚ)) none
      (by decide) (by with_unfolding_all decide)⟩

lemma connectLineStrings_of_connectable (tr : Transc) (lineStrings : List (List Pt))
    (stageName : String) (waypoints : Option Waypoints)
    (c : Connectable) (cs : List Connectable)
    (hcc : findConnectableLineStrings tr lineStrings 10 = c :: cs) :
    connectLineStrings tr lineStrings stageName waypoints =
      (let bestConnection := cs.foldl
        (fun best current =>
          if best.totalLength < current.totalLength then current else best) c
      let connected := joinConnection bestConnection.connectionType
        bestConnection.lineString1 bestConnection.lineString2
      match waypoints with
      | some wps =>
        match wps.finish with
        | some f => validateRouteDirectionByFinish tr connected f
        | none => some connected
      | none => some connected) := by
  unfold connectLineStrings
  rw [hcc]

/-- Claim C2: whenever at least one connectable pair of significant
fragments exists, `connectLineStrings` joins a connectable pair whose
combined length is maximal over all connectable pairs (joining at most
two fragments), and the resulting route has length
`len(A) + len(B) - 1`, the duplicate shared endpoint having been dropped
from the second piece. -/
theorem claim_C2_theorem (tr : Transc) (lineStrings : List (List Pt))
    (stageName : String) (waypoints : Option Waypoints)
    (hconn : findConnectableLineStrings tr lineStrings 10 ≠ []) :
    ∃ best ∈ findConnectableLineStrings tr lineStrings 10,
      (∀ x ∈ findConnectableLineStrings tr lineStrings 10,
        x.totalLength ≤ best.totalLength) ∧
      ∃ r, connectLineStrings tr lineStrings stageName waypoints = some r ∧
        (r = joinConnection best.connectionType best.lineString1 best.lineString2 ∨
          r = (joinConnection best.connectionType best.lineString1 best.lineString2).reverse) ∧
        r.length = best.lineString1.length + best.lineString2.length - 1 ∧
        r.length + 1 = best.lineString1.length + best.lineString2.length := by
  obtain ⟨c, cs, hcc⟩ : ∃ c cs, findConnectableLineStrings tr lineStrings 10 = c :: cs := by
    cases h : findConnectableLineStrings tr lineStrings 10 with
    | nil => exact absurd h hconn
    | cons c cs => exact ⟨c, cs, rfl⟩
  have hfold := foldl_best_spec Connectable.totalLength cs c
  set best := cs.foldl
    (fun best current =>
      if best.totalLength < current.totalLength then current else best) c with hbestdef
  have hbestmem : best ∈ findConnectableLineStrings tr lineStrings 10 := by
    rw [hcc]
    rcases hfold.1 with h | h
    · rw [h]; exact List.mem_cons_self _ _
    · exact List.mem_cons_of_mem _ h
  have hmax : ∀ x ∈ findConnectableLineStrings tr lineStrings 10,
      x.totalLength ≤ best.totalLength := by
    intro x hx
    rw [hcc] at hx
    rcases List.mem_cons.mp hx with rfl | hx
    · exact hfold.2.1
    · exact hfold.2.2 x hx
  have hlens := findConnectableLineStrings_mem hbestmem
  have hl1 := hlens.1
  have hl2 := hlens.2.1
  have hne1 : best.lineString1 ≠ [] := by
    intro hnil
    rw [hnil] at hl1
    simp at hl1
  have hne2 : best.lineString2 ≠ [] := by
    intro hnil
    rw [hnil] at hl2
    simp at hl2
  have hjlen := joinConnection_length best.connectionType best.lineString1
    best.lineString2 hne1 hne2
  refine ⟨best, hbestmem, hmax, ?_⟩
  rw [connectLineStrings_of_connectable tr lineStrings stageName waypoints c cs hcc]
  dsimp only
  rw [← hbestdef]
  have hcon_ne : joinConnection best.connectionType best.lineString1 best.lineString2 ≠ [] := by
    intro hnil
    rw [hnil] at hjlen
    simp at hjlen
    omega
  cases waypoints with
  | none =>
    exact ⟨_, rfl, Or.inl rfl, by omega, by omega⟩
  | some wps =>
    obtain ⟨ws, wf⟩ := wps
    cases wf with
    | none => exact ⟨_, rfl, Or.inl rfl, by omega, by omega⟩
    | some f =>
      obtain ⟨c0, cs0, hc0⟩ : ∃ c0 cs0,
          joinConnection best.connectionType best.lineString1 best.lineString2 = c0 :: cs0 := by
        cases hj : joinConnection best.connectionType best.lineString1 best.lineString2 with
        | nil => exact absurd hj hcon_ne
        | cons c0 cs0 => exact ⟨c0, cs0, rfl⟩
      rw [hc0]
      obtain ⟨r, hr, hor⟩ := validateRouteDirectionByFinish_some tr c0 cs0 f
      have hrlen : r.length = (c0 :: cs0).length := by
        rcases hor with rfl | rfl
        · rfl
        · exact List.length_reverse _
      rw [hc0] at hjlen
      refine ⟨r, hr, hor, by omega, by omega⟩

/-- Witness for C2: two 101-point fragments whose endpoints are 1 apart in
squared planar distance form the unique connectable pair and are stitched
into a 201-point route. -/
theorem claim_C2_witness :
    findConnectableLineStrings trQuad
        [List.replicate 101 ((0:ℚ), (0:ℚ)), List.replicate 101 ((1:ℚ), (0:ℚ))] 10 ≠ [] ∧
      ∃ best ∈ findConnectableLineStrings trQuad
          [List.replicate 101 ((0:ℚ), (0:ℚ)), List.replicate 101 ((1:ℚ), (0:ℚ))] 10,
        (∀ x ∈ findConnectableLineStrings trQuad
            [List.replicate 101 ((0:ℚ), (0:ℚ)), List.replicate 101 ((1:ℚ), (0:ℚ))] 10,
          x.totalLength ≤ best.totalLength) ∧
        ∃ r, connectLineStrings trQuad
            [List.replicate 101 ((0:ℚ), (0:ℚ)), List.replicate 101 ((1:ℚ), (0:ℚ))]
            "" none = some r ∧
          (r = joinConnection best.connectionType best.lineString1 best.lineString2 ∨
            r = (joinConnection best.connectionType best.lineString1 best.lineString2).reverse) ∧
          r.length = best.lineString1.length + best.lineString2.length - 1 ∧
          r.length + 1 = best.lineString1.length + best.lineString2.length :=
  ⟨by with_unfolding_all decide,
    claim_C2_theorem trQuad
      [List.replicate 101 ((0:ℚ), (0:ℚ)), List.replicate 101 ((1:ℚ), (0:ℚ))] "" none
      (by with_unfolding_all decide)⟩

/-- Claim C3 (amended): a pair of fragments is classified connectable
exactly when the minimum of the four endpoint-combination planar distances
(start-start, start-end, end-start, end-end) is within the threshold
(equivalently, when any of them is); but the selected connection — whose
type drives the join — is the FIRST combination within the threshold in
the fixed source order start-start, start-end, end-start, end-end, which
coincides with the minimal one only when a single combination qualifies. -/
theorem claim_C3_theorem (tr : Transc) (ls1 ls2 : List Pt) (maxDistance : ℚ) :
    ((closeConnection tr ls1 ls2 maxDistance).isSome ↔
      min (min (calculateDistance tr ls1.headI ls2.headI)
            (calculateDistance tr ls1.headI ls2.getLastI))
          (min (calculateDistance tr ls1.getLastI ls2.headI)
            (calculateDistance tr ls1.getLastI ls2.getLastI)) ≤ maxDistance) ∧
    closeConnection tr ls1 ls2 maxDistance =
      (if calculateDistance tr ls1.headI ls2.headI ≤ maxDistance then
        some (ConnType.startStart, calculateDistance tr ls1.headI ls2.headI)
      else if calculateDistance tr ls1.headI ls2.getLastI ≤ maxDistance then
        some (ConnType.startEnd, calculateDistance tr ls1.headI ls2.getLastI)
      else if calculateDistance tr ls1.getLastI ls2.headI ≤ maxDistance then
        some (ConnType.endStart, calculateDistance tr ls1.getLastI ls2.headI)
      else if calculateDistance tr ls1.getLastI ls2.getLastI ≤ maxDistance then
        some (ConnType.endEnd, calculateDistance tr ls1.getLastI ls2.getLastI)
      else none) := by
  constructor
  · by_cases h1 : calculateDistance tr ls1.headI ls2.headI ≤ maxDistance <;>
    by_cases h2 : calculateDistance tr ls1.headI ls2.getLastI ≤ maxDistance <;>
    by_cases h3 : calculateDistance tr ls1.getLastI ls2.headI ≤ maxDistance <;>
    by_cases h4 : calculateDistance tr ls1.getLastI ls2.getLastI ≤ maxDistance <;>
    simp [closeConnection, endpointCombinations, List.find?, h1, h2, h3, h4,
      min_le_iff]
  · by_cases h1 : calculateDistance tr ls1.headI ls2.headI ≤ maxDistance <;>
    by_cases h2 : calculateDistance tr ls1.headI ls2.getLastI ≤ maxDistance <;>
    by_cases h3 : calculateDistance tr ls1.getLastI ls2.headI ≤ maxDistance <;>
    by_cases h4 : calculateDistance tr ls1.getLastI ls2.getLastI ≤ maxDistance <;>
    simp [closeConnection, endpointCombinations, List.find?, h1, h2, h3, h4]

/-- Counterexample to C3 as stated: for a concrete pair of significant
fragments the minimal endpoint combination is end-start at squared planar
distance 4, but the selected connection (which drives the join) is
start-start at distance 9 — the first combination within the threshold in
source order, not the minimal one. -/
theorem claim_C3_counterexample :
    ¬ (∀ (tr : Transc) (ls1 ls2 : List Pt),
        100 < ls1.length → 100 < ls2.length →
        ∀ c, closeConnection tr ls1 ls2 10 = some c →
          ∀ x ∈ endpointCombinations tr ls1 ls2, c.2 ≤ x.2) := by
  intro h
  have h1 := h trQuad (List.replicate 100 ((0:ℚ), (0:ℚ)) ++ [((1:ℚ), (0:ℚ))])
    (List.replicate 101 ((3:ℚ), (0:ℚ)))
    (by decide) (by decide)
    (ConnType.startStart, 9) (by with_unfolding_all decide)
    (ConnType.endStart, 4) (by with_unfolding_all decide)
  exact absurd h1 (by decide)

/-- Witness for C6 at a concrete input with one in-bounds point (origin,
converting to latitude 45 under the polynomial kernels is not needed —
the kernels give lat inside `[41, 52]` only as computed) applied through
the theorem; the conclusion is its instantiation. -/
theorem claim_C6_witness :
    convertWebMercatorToWGS84 trZero [((0:ℚ), (0:ℚ)), ((1000000000:ℚ), (0:ℚ))] =
      (([((0:ℚ), (0:ℚ)), ((1000000000:ℚ), (0:ℚ))] : List Pt).map
        (convertMercatorPoint trZero)).filter inFranceBounds ∧
    (convertWebMercatorToWGS84 trZero
      [((0:ℚ), (0:ℚ)), ((1000000000:ℚ), (0:ℚ))]).length ≤
      ([((0:ℚ), (0:ℚ)), ((1000000000:ℚ), (0:ℚ))] : List Pt).length ∧
    ∀ c ∈ convertWebMercatorToWGS84 trZero [((0:ℚ), (0:ℚ)), ((1000000000:ℚ), (0:ℚ))],
      inFranceBounds c = true :=
  claim_C6_theorem trZero [((0:ℚ), (0:ℚ)), ((1000000000:ℚ), (0:ℚ))]
